import Mathlib

/-!
Verification of the PDF→text conversion pipeline (src/pdf2text_mistral.py).

The script is a Streamlit app.  Its decision logic is:
  * a retry wrapper `retry(func, max_attempts=3, delay=2)` (lines 23-30);
  * a per-session state of rasterized images, published ImgBB URLs and
    recognized OCR texts (lines 75-80);
  * the upload-PDF flow: a page loop that skips pages whose index is below
    the number of recorded URLs, otherwise publishes then recognizes the
    page with retries, appending to the session collections and to the
    accumulated `full_text`, breaking on the first failure (lines 110-134);
  * a resume handler that recomputes `full_text` from the recorded
    URL/text pairs (lines 85-90);
  * a direct image-URL flow that filters the pasted text into HTTPS URLs
    and runs OCR on each URL independently (lines 139-152).

Remote calls (ImgBB upload, Mistral OCR) are modelled as oracles: a
function from the call's arguments (and, under `retry`, the attempt
number) to an `Except` result, `Except.error` standing for a raised
exception.  Time delays (`time.sleep`) have no observable effect on the
values computed and are not modelled.
-/

namespace PdfOcr

/-- The retry wrapper, lines 23-30:
```
def retry(func, max_attempts=3, delay=2):
    for attempt in range(1, max_attempts + 1):
        try:
            return func()
        except Exception as e:
            if attempt == max_attempts:
                raise e
            time.sleep(delay)
```
`f` gives the outcome of each call of `func` (indexed by the attempt
number, starting at 1, since successive calls may behave differently).
The loop over `range(1, max_attempts + 1)` is the loop over
`List.range' 1 max_attempts`.  Falling off the end of the loop returns
Python's implicit `None`, hence the `Option` in the result:
`Except.ok none` is returning `None`, `Except.ok (some a)` is returning a
value, `Except.error e` is an uncaught raise. -/
def retryLoop {ε α : Type} (f : Nat → Except ε α) (max_attempts : Nat) :
    List Nat → Except ε (Option α)
  | [] => Except.ok none
  | attempt :: rest =>
    match f attempt with
    | Except.ok a => Except.ok (some a)
    | Except.error e =>
      if attempt = max_attempts then Except.error e else retryLoop f max_attempts rest

/-- `retry func max_attempts` from lines 23-30 (the `delay` argument only
sleeps and is dropped). -/
def retry {ε α : Type} (f : Nat → Except ε α) (max_attempts : Nat) : Except ε (Option α) :=
  retryLoop f max_attempts (List.range' 1 max_attempts)

/-- `run_ocr_on_image_url`, lines 63-72: the task queries the OCR service
with the URL and joins the markdown of the returned pages with
`"\n\n".join(...)`; the task is run under `retry` with the default
`max_attempts = 3`.  `ocrPages url attempt` is the list of per-page
markdown strings returned by the remote call on this attempt, or an
error. -/
def run_ocr_on_image_url (ocrPages : String → Nat → Except String (List String))
    (url : String) : Except String (Option String) :=
  retry (fun attempt => (ocrPages url attempt).map (String.intercalate "\n\n")) 3

/-- A concrete fallible operation used to instantiate the retry theorems:
fails on attempt 1 and succeeds with 7 from attempt 2 on. -/
def retryFix : Nat → Except String Nat :=
  fun i => if i ≤ 1 then Except.error "boom" else Except.ok 7

/-- A concrete OCR oracle: always returns two text segments. -/
def ocrFix : String → Nat → Except String (List String) :=
  fun _ _ => Except.ok ["seg1", "seg2"]

/-- The per-session mutable state initialized at lines 75-80:
`st.session_state.images`, `st.session_state.imgbb_urls`,
`st.session_state.ocr_texts`.  The rasterized page images are abstracted
to their count (`images`): the page loop only uses the list through
`enumerate`, i.e. through the page index, and each path is a fixed
function of the index within a run. -/
structure SessionState where
  images : Nat
  imgbb_urls : List String
  ocr_texts : List String

/-- The remote services as seen by the page loop of the upload-PDF flow:
`publish i` is the observable result of `upload_image_to_imgbb` on page
`i`'s image (the URL, or the error the final retry attempt raised), and
`recognize u` the observable result of `run_ocr_on_image_url u` (the
joined text, or the final error).  Both source functions are their task
run under `retry` with `max_attempts = 3` (`retry` is modelled above);
an `Except.error` here is a permanent failure that exhausted retries. -/
structure Services where
  publish : Nat → Except String String
  recognize : String → Except String String

/-- How one invocation of the upload-PDF page loop (lines 112-129) ends:
`completed` - the `for` loop ran through every page;
`pageFailed i e` - the `except` branch caught `e` for page `i`, showed
the error and executed `break`;
`crashed i` - reading `st.session_state.ocr_texts[i]` in the skip branch
raised an IndexError outside the `try`, aborting the script. -/
inductive LoopExit where
  | completed : LoopExit
  | pageFailed : Nat → String → LoopExit
  | crashed : Nat → LoopExit
deriving DecidableEq

/-- Observable outcome of one invocation of the upload-PDF flow: the
session state after the loop, the accumulated `full_text`, the page
indices on which `upload_image_to_imgbb` was called, the URLs on which
`run_ocr_on_image_url` was called, and how the loop ended. -/
structure RunOutput where
  state : SessionState
  fullText : String
  pubCalls : List Nat
  recCalls : List String
  outcome : LoopExit

/-- The page-boundary marker prepended to page `i`'s text (0-based `i`;
the displayed page number is `i + 1`), from
`full_text += f"\n\n--- Page {i+1} ---\n\n{result}"` (lines 87 and 129). -/
def pageMarker (i : Nat) : String :=
  "\n\n--- Page " ++ toString (i + 1) ++ " ---\n\n"

/-- The page loop of the upload-PDF flow, lines 112-129:
```
for i, img_path in enumerate(st.session_state.images):
    if i < len(st.session_state.imgbb_urls):
        img_url = st.session_state.imgbb_urls[i]
        result = st.session_state.ocr_texts[i]
    else:
        try:
            img_url = upload_image_to_imgbb(img_path)
            st.session_state.imgbb_urls.append(img_url)
            result = run_ocr_on_image_url(img_url)
            st.session_state.ocr_texts.append(result)
        except Exception as e:
            st.error(...); break
    full_text += f"\n\n--- Page {i+1} ---\n\n{result}"
```
`pages` is the list of remaining page indices, `st`/`ft`/`pc`/`rc` the
session state, `full_text`, and the publish/recognize call logs so far.
The read `ocr_texts[i]` in the skip branch is unguarded in the source;
when `i` is out of bounds it raises IndexError outside the `try`,
modelled by `crashed`. -/
def pdfLoop (sv : Services) :
    List Nat → SessionState → String → List Nat → List String → RunOutput
  | [], st, ft, pc, rc => ⟨st, ft, pc, rc, LoopExit.completed⟩
  | i :: rest, st, ft, pc, rc =>
    if _h : i < st.imgbb_urls.length then
      if h2 : i < st.ocr_texts.length then
        pdfLoop sv rest st (ft ++ pageMarker i ++ st.ocr_texts.get ⟨i, h2⟩) pc rc
      else
        ⟨st, ft, pc, rc, LoopExit.crashed i⟩
    else
      match sv.publish i with
      | Except.error e => ⟨st, ft, pc ++ [i], rc, LoopExit.pageFailed i e⟩
      | Except.ok url =>
        match sv.recognize url with
        | Except.error e =>
          ⟨⟨st.images, st.imgbb_urls ++ [url], st.ocr_texts⟩, ft,
            pc ++ [i], rc ++ [url], LoopExit.pageFailed i e⟩
        | Except.ok result =>
          pdfLoop sv rest
            ⟨st.images, st.imgbb_urls ++ [url], st.ocr_texts ++ [result]⟩
            (ft ++ pageMarker i ++ result) (pc ++ [i]) (rc ++ [url])

/-- One invocation of the upload-PDF flow (lines 95-129) on a session in
state `st`, for a PDF whose rasterization yields `nPages` page images:
`convert_pdf_to_images` overwrites `st.session_state.images` (line 101)
while `imgbb_urls` and `ocr_texts` persist from the session, then the
page loop runs with `full_text = ""`. -/
def uploadPdfFlow (sv : Services) (nPages : Nat) (st : SessionState) : RunOutput :=
  pdfLoop sv (List.range nPages) ⟨nPages, st.imgbb_urls, st.ocr_texts⟩ "" [] []

/-- The session state right after initialization, lines 75-80: all three
collections empty. -/
def initState : SessionState := ⟨0, [], []⟩

/-- `markedConcat k ts` is the concatenation of the texts `ts` with
their page-boundary markers, the first text being page index `k`. -/
def markedConcat (k : Nat) : List String → String
  | [] => ""
  | t :: ts => pageMarker k ++ t ++ markedConcat (k + 1) ts

/-- The loop of the "Resume Previous Session" handler, lines 86-87:
```
for i, (url, text) in enumerate(zip(st.session_state.imgbb_urls, st.session_state.ocr_texts)):
    full_text += f"\n\n--- Page {i+1} ---\n\n{text}"
```
`i` is the enumerate counter, `pairs` the remaining URL/text pairs. -/
def resumeLoop : Nat → List (String × String) → String
  | _, [] => ""
  | i, (_, text) :: rest => pageMarker i ++ text ++ resumeLoop (i + 1) rest

/-- The "Resume Previous Session" handler, lines 85-90: `full_text` is
recomputed on demand from the recorded URL/text pairs. -/
def resumeFullText (st : SessionState) : String :=
  resumeLoop 0 (st.imgbb_urls.zip st.ocr_texts)

/-- Services that never fail, built from pure publish/recognize
functions: the "no remote failures" scenario. -/
def okServices (pub : Nat → String) (recF : String → String) : Services :=
  ⟨fun i => Except.ok (pub i), fun u => Except.ok (recF u)⟩

/-- Services that fail permanently exactly at page `f`: if `atPublish`
the publish step of page `f` fails with `err`, otherwise publishing
succeeds everywhere and recognition fails with `err` on page `f`'s URL
`pub f`. -/
def failingServices (pub : Nat → String) (recF : String → String) (f : Nat)
    (atPublish : Bool) (err : String) : Services :=
  ⟨fun i => if atPublish = true ∧ i = f then Except.error err else Except.ok (pub i),
   fun u => if atPublish = false ∧ u = pub f then Except.error err else Except.ok (recF u)⟩

/-- Concrete always-succeeding services for closed evaluations. -/
def constServices : Services :=
  ⟨fun _ => Except.ok "u", fun _ => Except.ok "t"⟩

/-- A session state in which page 0 was published but not recognized
(one recorded URL, no recorded text), as left behind by a run whose
recognition step failed after its publish step succeeded. -/
def crashState : SessionState := ⟨1, ["u"], []⟩

/-- What the "Run OCR" handler displays for one URL of the direct
image-URL flow (lines 142-150): on success, the extracted text with its
1-based position; on failure, the caught error with that position. -/
inductive UrlOutcome where
  | output : Nat → String → UrlOutcome
  | errorReport : Nat → String → UrlOutcome
deriving DecidableEq

/-- The loop of the "Run OCR" handler, lines 142-150:
```
for idx, url in enumerate(urls, 1):
    try:
        extracted = run_ocr_on_image_url(url)
        st.success(...); st.text_area(..., extracted, ...)
    except Exception as e:
        st.error(f"❌ Error for image {idx}: {e}")
```
`recOcr u` is the observable result of `run_ocr_on_image_url u` for this
flow (text, or the error the final retry attempt raised); `idx` is the
1-based counter of `enumerate(urls, 1)`. -/
def urlLoop (recOcr : String → Except String String) : Nat → List String → List UrlOutcome
  | _, [] => []
  | idx, u :: rest =>
    (match recOcr u with
     | Except.ok t => UrlOutcome.output idx t
     | Except.error e => UrlOutcome.errorReport idx e) :: urlLoop recOcr (idx + 1) rest

/-- The whole "Run OCR" handler body for a non-empty filtered URL list:
the loop starting at `idx = 1`. -/
def runOcrButton (recOcr : String → Except String String) (urls : List String) :
    List UrlOutcome :=
  urlLoop recOcr 1 urls

/-- A concrete OCR-result oracle for the URL flow: fails on the URL
`"https://b"` and succeeds elsewhere. -/
def recOcrFix : String → Except String String :=
  fun u => if u = "https://b" then Except.error "boom" else Except.ok ("T:" ++ u)

/-- Concrete URL list: three URLs of which `recOcrFix` fails the second. -/
def urlsFix : List String := ["https://a", "https://b", "https://c"]

/-- Python `str.splitlines` on the characters of the input, restricted to
the line terminators that can occur in a Streamlit text area
(`"\n"`, `"\r"`, `"\r\n"`, the last counting as a single break); like
Python, it yields no trailing empty line. -/
def splitlinesAux : List Char → List Char → List String
  | [], acc => if acc.isEmpty then [] else [String.mk acc.reverse]
  | '\r' :: '\n' :: rest, acc => String.mk acc.reverse :: splitlinesAux rest []
  | '\n' :: rest, acc => String.mk acc.reverse :: splitlinesAux rest []
  | '\r' :: rest, acc => String.mk acc.reverse :: splitlinesAux rest []
  | c :: rest, acc => splitlinesAux rest (c :: acc)

/-- `image_urls.splitlines()` of line 140. -/
def pySplitlines (s : String) : List String :=
  splitlinesAux s.data []

/-- The ASCII whitespace characters Python `str.strip()` removes. -/
def pyIsSpace (c : Char) : Bool :=
  c == ' ' || c == '\t' || c == '\n' || c == '\r' || c == '\x0b' || c == '\x0c'

/-- Python `url.strip()`: remove leading and trailing whitespace. -/
def pyStrip (s : String) : String :=
  String.mk (((s.data.dropWhile pyIsSpace).reverse.dropWhile pyIsSpace).reverse)

/-- Python `part.split(",")`: split at every comma, keeping empty
entries (an input with no comma yields the one-element list). -/
def pySplitCommaAux : List Char → List Char → List String
  | [], acc => [String.mk acc.reverse]
  | ',' :: rest, acc => String.mk acc.reverse :: pySplitCommaAux rest []
  | c :: rest, acc => pySplitCommaAux rest (c :: acc)

/-- Python `part.split(",")` on a string. -/
def pySplitComma (s : String) : List String :=
  pySplitCommaAux s.data []

/-- Python `s.startswith(pre)`. -/
def pyStartsWith (s pre : String) : Bool :=
  pre.data.isPrefixOf s.data

/-- The URL filter of line 140:
```
urls = [url.strip() for part in image_urls.splitlines()
                    for url in part.split(",")
                    if url.strip().startswith("https://")]
```
-/
def filterUrls (image_urls : String) : List String :=
  ((pySplitlines image_urls).flatMap (fun part => pySplitComma part)).filterMap
    (fun url => if pyStartsWith (pyStrip url) "https://" then some (pyStrip url) else none)

/-- Splitting a `range'` of page indices. -/
theorem range'_split (s m n : Nat) :
    List.range' s (m + n) = List.range' s m ++ List.range' (s + m) n := by
  have h := (List.range'_append s m n 1).symm
  rw [Nat.add_comm n m] at h
  simpa using h

/-- The page loop processes a concatenation of page lists by processing
the first list and, only if it completed, continuing with the second. -/
theorem pdfLoop_append (sv : Services) (l2 : List Nat) :
    ∀ (l1 : List Nat) (st : SessionState) (ft : String) (pc : List Nat) (rc : List String),
    pdfLoop sv (l1 ++ l2) st ft pc rc =
      (match (pdfLoop sv l1 st ft pc rc).outcome with
       | LoopExit.completed =>
           pdfLoop sv l2 (pdfLoop sv l1 st ft pc rc).state
             (pdfLoop sv l1 st ft pc rc).fullText
             (pdfLoop sv l1 st ft pc rc).pubCalls (pdfLoop sv l1 st ft pc rc).recCalls
       | LoopExit.pageFailed _ _ => pdfLoop sv l1 st ft pc rc
       | LoopExit.crashed _ => pdfLoop sv l1 st ft pc rc) := by
  intro l1
  induction l1 with
  | nil => intro st ft pc rc; simp [pdfLoop]
  | cons i l1 ih =>
    intro st ft pc rc
    by_cases h1 : i < st.imgbb_urls.length
    · by_cases h2 : i < st.ocr_texts.length
      · simp only [List.cons_append, pdfLoop, dif_pos h1, dif_pos h2]
        exact ih _ _ _ _
      · simp [List.cons_append, pdfLoop, dif_pos h1, dif_neg h2]
    · cases hp : sv.publish i with
      | error e => simp [List.cons_append, pdfLoop, dif_neg h1, hp]
      | ok url =>
        cases hrec : sv.recognize url with
        | error e => simp [List.cons_append, pdfLoop, dif_neg h1, hp, hrec]
        | ok t =>
          simp only [List.cons_append, pdfLoop, dif_neg h1, hp, hrec]
          exact ih _ _ _ _

/-- Resume segment: pages whose index is below both collection lengths
are all skipped; the loop completes, changes nothing, performs no calls,
and accumulates the previously recorded texts in index order. -/
theorem pdfLoop_skip (sv : Services) :
    ∀ (j k : Nat) (st : SessionState) (ft : String) (pc : List Nat) (rc : List String),
    k + j ≤ st.ocr_texts.length → st.ocr_texts.length ≤ st.imgbb_urls.length →
    pdfLoop sv (List.range' k j) st ft pc rc =
      ⟨st, ft ++ markedConcat k ((st.ocr_texts.drop k).take j), pc, rc,
        LoopExit.completed⟩ := by
  intro j
  induction j with
  | zero =>
    intro k st ft pc rc _ _
    simp [pdfLoop, markedConcat, String.append_empty]
  | succ j ih =>
    intro k st ft pc rc hlen hle
    have hk : k < st.ocr_texts.length := by omega
    have hk2 : k < st.imgbb_urls.length := lt_of_lt_of_le hk hle
    rw [List.range'_succ k j 1]
    simp only [pdfLoop, dif_pos hk2, dif_pos hk]
    rw [ih (k + 1) st _ pc rc (by omega) hle]
    rw [List.drop_eq_getElem_cons hk, List.take_succ_cons]
    simp [markedConcat, String.append_assoc]

/-- Fresh segment with succeeding services: starting from balanced
collections of length `k`, pages `k, …, k+m-1` are each published and
recognized once, in ascending order, appending URL, text and marked text
in order. -/
theorem pdfLoop_fresh (sv : Services) (pub txt : Nat → String) :
    ∀ (m k : Nat) (st : SessionState) (ft : String) (pc : List Nat) (rc : List String),
    st.imgbb_urls.length = k → st.ocr_texts.length = k →
    (∀ i, k ≤ i → i < k + m → sv.publish i = Except.ok (pub i) ∧
      sv.recognize (pub i) = Except.ok (txt i)) →
    pdfLoop sv (List.range' k m) st ft pc rc =
      ⟨⟨st.images, st.imgbb_urls ++ (List.range' k m).map pub,
        st.ocr_texts ++ (List.range' k m).map txt⟩,
       ft ++ markedConcat k ((List.range' k m).map txt),
       pc ++ List.range' k m, rc ++ (List.range' k m).map pub,
       LoopExit.completed⟩ := by
  intro m
  induction m with
  | zero =>
    intro k st ft pc rc hu ht _
    simp [pdfLoop, markedConcat, String.append_empty]
  | succ m ih =>
    intro k st ft pc rc hu ht hsv
    have hnot : ¬ k < st.imgbb_urls.length := by omega
    obtain ⟨hp, hr⟩ := hsv k (le_refl k) (by omega)
    rw [List.range'_succ k m 1]
    simp only [pdfLoop, dif_neg hnot, hp, hr]
    rw [ih (k + 1) ⟨st.images, st.imgbb_urls ++ [pub k], st.ocr_texts ++ [txt k]⟩
      _ _ _ (by simp [hu]) (by simp [ht])
      (fun i h1 h2 => hsv i (by omega) (by omega))]
    simp [markedConcat, String.append_assoc]

/-- Marked concatenation over an appended list of texts. -/
theorem markedConcat_append :
    ∀ (l1 l2 : List String) (k : Nat),
    markedConcat k (l1 ++ l2) = markedConcat k l1 ++ markedConcat (k + l1.length) l2 := by
  intro l1
  induction l1 with
  | nil => intro l2 k; simp [markedConcat, String.empty_append]
  | cons t l1 ih =>
    intro l2 k
    simp only [List.cons_append, markedConcat, List.length_cons]
    rw [show k + (l1.length + 1) = k + 1 + l1.length by omega]
    simp [String.append_assoc, ih l2 (k + 1)]

/-- The resume handler's loop over zipped URL/text pairs produces the
marked concatenation of the texts whenever there are at least as many
URLs as texts (the zip then never truncates the texts). -/
theorem resumeLoop_eq_markedConcat :
    ∀ (ts us : List String) (k : Nat), ts.length ≤ us.length →
    resumeLoop k (us.zip ts) = markedConcat k ts := by
  intro ts
  induction ts with
  | nil => intro us k _; simp [List.zip_nil_right, resumeLoop, markedConcat]
  | cons t ts ih =>
    intro us k h
    cases us with
    | nil => simp at h
    | cons u us =>
      simp only [List.zip_cons_cons, resumeLoop, markedConcat]
      rw [show List.zipWith Prod.mk us ts = us.zip ts from rfl,
        ih us (k + 1) (by simpa using h)]

/-- Fresh segment with arbitrary (possibly failing) services: starting
from balanced collections of length `k`, the loop appends some texts
`ts` (at most one per page) and some URLs `us` (the texts' URLs, plus
possibly one more when recognition failed after a publish), and the
accumulated text is exactly the marked concatenation of `ts`. -/
theorem pdfLoop_balanced (sv : Services) :
    ∀ (m k : Nat) (st : SessionState) (ft : String) (pc : List Nat) (rc : List String),
    st.imgbb_urls.length = k → st.ocr_texts.length = k →
    ∃ (ts us : List String),
      ts.length ≤ m ∧ ts.length ≤ us.length ∧ us.length ≤ ts.length + 1 ∧
      (pdfLoop sv (List.range' k m) st ft pc rc).state =
        ⟨st.images, st.imgbb_urls ++ us, st.ocr_texts ++ ts⟩ ∧
      (pdfLoop sv (List.range' k m) st ft pc rc).fullText = ft ++ markedConcat k ts := by
  intro m
  induction m with
  | zero =>
    intro k st ft pc rc hu ht
    exact ⟨[], [], by simp, by simp, by simp, by simp [pdfLoop], by
      simp [pdfLoop, markedConcat, String.append_empty]⟩
  | succ m ih =>
    intro k st ft pc rc hu ht
    have hnot : ¬ k < st.imgbb_urls.length := by omega
    rw [List.range'_succ k m 1]
    cases hp : sv.publish k with
    | error e =>
      refine ⟨[], [], by simp, by simp, by simp, ?_, ?_⟩
      · simp [pdfLoop, dif_neg hnot, hp]
      · simp [pdfLoop, dif_neg hnot, hp, markedConcat, String.append_empty]
    | ok url =>
      cases hrec : sv.recognize url with
      | error e =>
        refine ⟨[], [url], by simp, by simp, by simp, ?_, ?_⟩
        · simp [pdfLoop, dif_neg hnot, hp, hrec]
        · simp [pdfLoop, dif_neg hnot, hp, hrec, markedConcat, String.append_empty]
      | ok t =>
        obtain ⟨ts, us, h1, h2, h3, h4, h5⟩ :=
          ih (k + 1) ⟨st.images, st.imgbb_urls ++ [url], st.ocr_texts ++ [t]⟩
            (ft ++ pageMarker k ++ t) (pc ++ [k]) (rc ++ [url])
            (by simp [hu]) (by simp [ht])
        refine ⟨t :: ts, url :: us, by simp; omega, by simpa using h2, by simpa using h3, ?_, ?_⟩
        · simp only [pdfLoop, dif_neg hnot, hp, hrec]
          rw [h4]
          simp
        · simp only [pdfLoop, dif_neg hnot, hp, hrec]
          rw [h5]
          simp [markedConcat, String.append_assoc]

/-- The page loop preserves `len(ocr_texts) ≤ len(imgbb_urls)` and never
touches the images collection. -/
theorem pdfLoop_texts_le_urls (sv : Services) :
    ∀ (pages : List Nat) (st : SessionState) (ft : String) (pc : List Nat) (rc : List String),
    st.ocr_texts.length ≤ st.imgbb_urls.length →
    (pdfLoop sv pages st ft pc rc).state.ocr_texts.length ≤
      (pdfLoop sv pages st ft pc rc).state.imgbb_urls.length ∧
    (pdfLoop sv pages st ft pc rc).state.images = st.images := by
  intro pages
  induction pages with
  | nil => intro st ft pc rc h; simpa [pdfLoop] using h
  | cons i pages ih =>
    intro st ft pc rc h
    by_cases h1 : i < st.imgbb_urls.length
    · by_cases h2 : i < st.ocr_texts.length
      · simp only [pdfLoop, dif_pos h1, dif_pos h2]
        exact ih st _ pc rc h
      · simpa [pdfLoop, dif_pos h1, dif_neg h2] using h
    · cases hp : sv.publish i with
      | error e => simpa [pdfLoop, dif_neg h1, hp] using h
      | ok url =>
        cases hrec : sv.recognize url with
        | error e =>
          simp only [pdfLoop, dif_neg h1, hp, hrec]
          exact ⟨by simp; omega, by simp⟩
        | ok t =>
          simp only [pdfLoop, dif_neg h1, hp, hrec]
          exact ih _ _ _ _ (by simp; omega)

/-- If every processed page index is below `N` and at most `N` URLs are
recorded, the loop leaves at most `N` URLs recorded. -/
theorem pdfLoop_urls_bound (sv : Services) (N : Nat) :
    ∀ (pages : List Nat) (st : SessionState) (ft : String) (pc : List Nat) (rc : List String),
    (∀ i ∈ pages, i < N) → st.imgbb_urls.length ≤ N →
    (pdfLoop sv pages st ft pc rc).state.imgbb_urls.length ≤ N := by
  intro pages
  induction pages with
  | nil => intro st ft pc rc _ h; simpa [pdfLoop] using h
  | cons i pages ih =>
    intro st ft pc rc hN h
    have hiN : i < N := hN i (List.mem_cons_self i pages)
    have hrest : ∀ j ∈ pages, j < N := fun j hj => hN j (List.mem_cons_of_mem i hj)
    by_cases h1 : i < st.imgbb_urls.length
    · by_cases h2 : i < st.ocr_texts.length
      · simp only [pdfLoop, dif_pos h1, dif_pos h2]
        exact ih st _ pc rc hrest h
      · simpa [pdfLoop, dif_pos h1, dif_neg h2] using h
    · cases hp : sv.publish i with
      | error e => simpa [pdfLoop, dif_neg h1, hp] using h
      | ok url =>
        cases hrec : sv.recognize url with
        | error e =>
          simp only [pdfLoop, dif_neg h1, hp, hrec]
          simp
          omega
        | ok t =>
          simp only [pdfLoop, dif_neg h1, hp, hrec]
          exact ih _ _ _ _ hrest (by simp; omega)

/-- The URL-flow loop reports exactly one outcome per URL. -/
theorem urlLoop_length (recOcr : String → Except String String) :
    ∀ (urls : List String) (k : Nat), (urlLoop recOcr k urls).length = urls.length := by
  intro urls
  induction urls with
  | nil => intro k; rfl
  | cons u urls ih => intro k; simp [urlLoop, ih]

/-- The outcome at position `j` of the URL-flow loop depends only on the
OCR result for the URL at position `j`, with the 1-based counter
`k + j`. -/
theorem urlLoop_getD (recOcr : String → Except String String) :
    ∀ (urls : List String) (j k : Nat), j < urls.length →
    (urlLoop recOcr k urls).getD j (UrlOutcome.errorReport 0 "") =
      (match recOcr (urls.getD j "") with
       | Except.ok t => UrlOutcome.output (k + j) t
       | Except.error e => UrlOutcome.errorReport (k + j) e) := by
  intro urls
  induction urls with
  | nil => intro j k h; simp at h
  | cons u urls ih =>
    intro j k h
    cases j with
    | zero => simp [urlLoop]
    | succ j =>
      have := ih j (k + 1) (by simpa using h)
      simp only [urlLoop, List.getD_cons_succ, this]
      rw [show k + 1 + j = k + (j + 1) by omega]

/-- A filterMap that keeps `g x` when `p (g x)` equals mapping `g` then
filtering by `p`. -/
theorem filterMap_map_filter {α β : Type} (g : α → β) (p : β → Bool) :
    ∀ l : List α,
    l.filterMap (fun x => if p (g x) then some (g x) else none) = (l.map g).filter p := by
  intro l
  induction l with
  | nil => rfl
  | cons a l ih =>
    simp only [List.filterMap_cons, List.map_cons, List.filter_cons]
    by_cases h : p (g a)
    · simp [h, ih]
    · simp [h, ih]

/-- C1: with `max_attempts = 3`, an operation that fails on attempts
1..k (k < 3) and succeeds on attempt k+1 makes `retry` return that
success value with no error; an operation failing on all three attempts
makes `retry` raise exactly the final attempt's error, unchanged. -/
theorem retry_policy {ε α : Type} (f : Nat → Except ε α) :
    (∀ k, k < 3 → (∀ i, 1 ≤ i → i ≤ k → ∃ e, f i = Except.error e) →
      ∀ v, f (k + 1) = Except.ok v → retry f 3 = Except.ok (some v)) ∧
    (∀ e1 e2 e3, f 1 = Except.error e1 → f 2 = Except.error e2 → f 3 = Except.error e3 →
      retry f 3 = Except.error e3) := by
  have hr : List.range' 1 3 = [1, 2, 3] := rfl
  constructor
  · intro k hk hfail v hv
    interval_cases k
    · simp [retry, hr, retryLoop, hv]
    · obtain ⟨e1, he1⟩ := hfail 1 (by omega) (by omega)
      simp [retry, hr, retryLoop, he1, hv]
    · obtain ⟨e1, he1⟩ := hfail 1 (by omega) (by omega)
      obtain ⟨e2, he2⟩ := hfail 2 (by omega) (by omega)
      simp [retry, hr, retryLoop, he1, he2, hv]
  · intro e1 e2 e3 h1 h2 h3
    simp [retry, hr, retryLoop, h1, h2, h3]

/-- C1 witness: `retryFix` fails once then succeeds with 7; `retry`
returns `some 7`. -/
theorem retry_policy_witness :
    (1 : Nat) < 3 ∧ retry retryFix 3 = Except.ok (some 7) := by
  refine ⟨by decide, (retry_policy retryFix).1 1 (by decide) ?_ 7 rfl⟩
  intro i h1 h2
  have hi : i = 1 := Nat.le_antisymm h2 h1
  subst hi
  exact ⟨"boom", rfl⟩

/-- C10: with `max_attempts < 1` the loop body is never entered: `retry`
invokes the operation zero times and returns Python's implicit `None`
(no value, no raised error), whatever the operation is. -/
theorem retry_no_attempts {ε α : Type} (f : Nat → Except ε α) (m : Nat) (h : m < 1) :
    retry f m = Except.ok none := by
  have hm : m = 0 := Nat.lt_one_iff.mp h
  subst hm
  rfl

/-- C10 witness: `retry` with `max_attempts = 0` returns `none` for the
concrete operation `retryFix`. -/
theorem retry_no_attempts_witness :
    (0 : Nat) < 1 ∧ retry retryFix 0 = Except.ok none :=
  ⟨by decide, retry_no_attempts retryFix 0 (by decide)⟩

/-- C8: if the remote recognition call returns the segment list `segs`
on the first attempt, `run_ocr_on_image_url` returns the single blob
joining the segments in order with a blank line (two newlines) between
consecutive segments. -/
theorem recognizer_joins (ocrPages : String → Nat → Except String (List String))
    (url : String) (segs : List String) (h : ocrPages url 1 = Except.ok segs) :
    run_ocr_on_image_url ocrPages url =
      Except.ok (some (String.intercalate "\n\n" segs)) := by
  have hr : List.range' 1 3 = [1, 2, 3] := rfl
  simp [run_ocr_on_image_url, retry, hr, retryLoop, h, Except.map]

/-- C8 witness: the concrete oracle returning `["seg1", "seg2"]` yields
the single blob joining them with a blank line. -/
theorem recognizer_joins_witness :
    ocrFix "https://x" 1 = Except.ok ["seg1", "seg2"] ∧
    run_ocr_on_image_url ocrFix "https://x" =
      Except.ok (some (String.intercalate "\n\n" ["seg1", "seg2"])) :=
  ⟨rfl, recognizer_joins ocrFix "https://x" ["seg1", "seg2"] rfl⟩

/-- C2: with no remote failures, running the upload-PDF flow twice on the
same `n`-page document within one session yields the same accumulated
text and the same session state as the first run, and the second run
performs zero publish calls and zero recognize calls: every page is
already `Done` and its recorded URL and text are reused. -/
theorem resume_idempotent (n : Nat) (pub : Nat → String) (recF : String → String) :
    (uploadPdfFlow (okServices pub recF) n
        (uploadPdfFlow (okServices pub recF) n initState).state).fullText =
      (uploadPdfFlow (okServices pub recF) n initState).fullText ∧
    (uploadPdfFlow (okServices pub recF) n
        (uploadPdfFlow (okServices pub recF) n initState).state).state =
      (uploadPdfFlow (okServices pub recF) n initState).state ∧
    (uploadPdfFlow (okServices pub recF) n
        (uploadPdfFlow (okServices pub recF) n initState).state).pubCalls = [] ∧
    (uploadPdfFlow (okServices pub recF) n
        (uploadPdfFlow (okServices pub recF) n initState).state).recCalls = [] ∧
    (uploadPdfFlow (okServices pub recF) n
        (uploadPdfFlow (okServices pub recF) n initState).state).outcome =
      LoopExit.completed := by
  have hrange : List.range n = List.range' 0 n := List.range_eq_range' n
  have hfresh := pdfLoop_fresh (okServices pub recF) pub (fun i => recF (pub i)) n 0
    ⟨n, [], []⟩ "" [] [] rfl rfl (fun i _ _ => ⟨rfl, rfl⟩)
  have hrun1 : uploadPdfFlow (okServices pub recF) n initState =
      ⟨⟨n, (List.range' 0 n).map pub, (List.range' 0 n).map (fun i => recF (pub i))⟩,
        markedConcat 0 ((List.range' 0 n).map (fun i => recF (pub i))),
        List.range' 0 n, (List.range' 0 n).map pub, LoopExit.completed⟩ := by
    unfold uploadPdfFlow
    rw [hrange]
    simpa [initState, String.empty_append] using hfresh
  have htake : List.take n ((List.range' 0 n).map (fun i => recF (pub i))) =
      (List.range' 0 n).map (fun i => recF (pub i)) :=
    List.take_of_length_le (by simp)
  have hskip := pdfLoop_skip (okServices pub recF) n 0
    ⟨n, (List.range' 0 n).map pub, (List.range' 0 n).map (fun i => recF (pub i))⟩
    "" [] [] (by simp) (by simp)
  have hrun2 : uploadPdfFlow (okServices pub recF) n
      (uploadPdfFlow (okServices pub recF) n initState).state =
      ⟨⟨n, (List.range' 0 n).map pub, (List.range' 0 n).map (fun i => recF (pub i))⟩,
        markedConcat 0 ((List.range' 0 n).map (fun i => recF (pub i))),
        [], [], LoopExit.completed⟩ := by
    rw [hrun1]
    unfold uploadPdfFlow
    rw [hrange]
    simpa [String.empty_append, htake] using hskip
  rw [hrun2, hrun1]
  exact ⟨rfl, rfl, rfl, rfl, rfl⟩

/-- C3: if the publish or recognize step of page `f` (0-based) fails
permanently while every earlier page succeeds with distinct URLs, the
run ends with page `f`'s failure reported: the accumulated text and the
recorded texts contain exactly the pages before `f` (which remain Done),
publish was called exactly on pages `0..f`, and no page after `f` is
ever attempted (its publish step is never invoked). -/
theorem abort_on_first_failure (n f : Nat) (pub : Nat → String) (recF : String → String)
    (err : String) (atPublish : Bool) (hf : f < n)
    (hinj : ∀ i, i < f → pub i ≠ pub f) :
    (uploadPdfFlow (failingServices pub recF f atPublish err) n initState).outcome =
      LoopExit.pageFailed f err ∧
    (uploadPdfFlow (failingServices pub recF f atPublish err) n initState).fullText =
      markedConcat 0 ((List.range f).map (fun i => recF (pub i))) ∧
    (uploadPdfFlow (failingServices pub recF f atPublish err) n initState).state.ocr_texts =
      (List.range f).map (fun i => recF (pub i)) ∧
    (uploadPdfFlow (failingServices pub recF f atPublish err) n initState).pubCalls =
      List.range (f + 1) ∧
    ∀ j, f < j →
      j ∉ (uploadPdfFlow (failingServices pub recF f atPublish err) n initState).pubCalls := by
  obtain ⟨m2, hm2⟩ : ∃ m2, n - f = m2 + 1 := ⟨n - f - 1, by omega⟩
  have hsplit : List.range n = List.range' 0 f ++ f :: List.range' (f + 1) m2 := by
    have h2 := range'_split 0 f (n - f)
    rw [show f + (n - f) = n by omega] at h2
    rw [hm2, List.range'_succ] at h2
    rw [List.range_eq_range' n, h2]
    norm_num
  have hpc : List.range' 0 f ++ [f] = List.range (f + 1) := by
    rw [List.range_succ, List.range_eq_range' f]
  cases atPublish with
  | true =>
    have hsv : ∀ i, 0 ≤ i → i < 0 + f →
        (failingServices pub recF f true err).publish i = Except.ok (pub i) ∧
        (failingServices pub recF f true err).recognize (pub i) =
          Except.ok (recF (pub i)) := by
      intro i _ h2
      constructor
      · simp only [failingServices]
        rw [if_neg]
        rintro ⟨_, h⟩
        omega
      · simp only [failingServices]
        rw [if_neg]
        rintro ⟨h, _⟩
        exact absurd h (by simp)
    have hfresh := pdfLoop_fresh (failingServices pub recF f true err) pub
      (fun i => recF (pub i)) f 0 ⟨n, [], []⟩ "" [] [] rfl rfl hsv
    have hpubf : (failingServices pub recF f true err).publish f = Except.error err := by
      simp [failingServices]
    have hrun : uploadPdfFlow (failingServices pub recF f true err) n initState =
        ⟨⟨n, (List.range' 0 f).map pub, (List.range' 0 f).map (fun i => recF (pub i))⟩,
          markedConcat 0 ((List.range' 0 f).map (fun i => recF (pub i))),
          List.range' 0 f ++ [f], (List.range' 0 f).map pub,
          LoopExit.pageFailed f err⟩ := by
      unfold uploadPdfFlow
      rw [hsplit, pdfLoop_append]
      simp only [initState]
      rw [hfresh]
      simp [pdfLoop, hpubf, String.empty_append]
    rw [hrun]
    refine ⟨rfl, ?_, ?_, ?_, ?_⟩
    · rw [List.range_eq_range' f]
    · rw [List.range_eq_range' f]
    · exact hpc
    · intro j hj
      simp only [List.mem_append, List.mem_range', List.mem_singleton]
      omega
  | false =>
    have hsv : ∀ i, 0 ≤ i → i < 0 + f →
        (failingServices pub recF f false err).publish i = Except.ok (pub i) ∧
        (failingServices pub recF f false err).recognize (pub i) =
          Except.ok (recF (pub i)) := by
      intro i _ h2
      constructor
      · simp only [failingServices]
        rw [if_neg]
        rintro ⟨h, _⟩
        exact absurd h (by simp)
      · simp only [failingServices]
        rw [if_neg]
        rintro ⟨_, h⟩
        exact hinj i (by omega) h
    have hfresh := pdfLoop_fresh (failingServices pub recF f false err) pub
      (fun i => recF (pub i)) f 0 ⟨n, [], []⟩ "" [] [] rfl rfl hsv
    have hpubf : (failingServices pub recF f false err).publish f = Except.ok (pub f) := by
      simp [failingServices]
    have hrecf : (failingServices pub recF f false err).recognize (pub f) =
        Except.error err := by
      simp [failingServices]
    have hrun : uploadPdfFlow (failingServices pub recF f false err) n initState =
        ⟨⟨n, (List.range' 0 f).map pub ++ [pub f],
            (List.range' 0 f).map (fun i => recF (pub i))⟩,
          markedConcat 0 ((List.range' 0 f).map (fun i => recF (pub i))),
          List.range' 0 f ++ [f], (List.range' 0 f).map pub ++ [pub f],
          LoopExit.pageFailed f err⟩ := by
      unfold uploadPdfFlow
      rw [hsplit, pdfLoop_append]
      simp only [initState]
      rw [hfresh]
      simp [pdfLoop, hpubf, hrecf, String.empty_append]
    rw [hrun]
    refine ⟨rfl, ?_, ?_, ?_, ?_⟩
    · rw [List.range_eq_range' f]
    · rw [List.range_eq_range' f]
    · exact hpc
    · intro j hj
      simp only [List.mem_append, List.mem_range', List.mem_singleton]
      omega

/-- C3 witness: a 3-page document (n = 3) whose page index 1 (the second
page) fails at its publish step: only page 1's text (index 0) is
accumulated, and page 3 (index 2) is never published. -/
theorem abort_on_first_failure_witness :
    (1 : Nat) < 3 ∧
    (uploadPdfFlow (failingServices (fun i => "u" ++ toString i) (fun u => "T" ++ u)
        1 true "boom") 3 initState).fullText =
      markedConcat 0 ((List.range 1).map (fun i => "T" ++ ("u" ++ toString i))) ∧
    (2 : Nat) ∉ (uploadPdfFlow (failingServices (fun i => "u" ++ toString i)
        (fun u => "T" ++ u) 1 true "boom") 3 initState).pubCalls := by
  have h := abort_on_first_failure 3 1 (fun i => "u" ++ toString i) (fun u => "T" ++ u)
    "boom" true (by decide) (by decide)
  exact ⟨by decide, h.2.1, h.2.2.2.2 2 (by decide)⟩

/-- C4 counterexample: the claimed invariant
`len(PublishedURL) ≤ len(PageImage)` is not preserved across pipeline
re-invocations within a session: fully processing a 2-page document and
then invoking the flow on a 1-page document leaves 2 recorded URLs but
only 1 page image. -/
theorem pipeline_invariant_violation :
    ¬ ((uploadPdfFlow constServices 1
          ((uploadPdfFlow constServices 2 initState).state)).state.imgbb_urls.length ≤
        (uploadPdfFlow constServices 1
          ((uploadPdfFlow constServices 2 initState).state)).state.images) := by
  decide

/-- C4 (amended): every flow invocation preserves
`len(RecognizedText) ≤ len(PublishedURL)`, and it also establishes
`len(PublishedURL) ≤ len(PageImage)` provided the invoked document has
at least as many pages as there are already-recorded URLs (in
particular, on every run and re-run with the same document); a
re-invocation on a smaller document can violate the latter inequality. -/
theorem pipeline_invariant_amended (sv : Services) (n : Nat) (st : SessionState)
    (h : st.ocr_texts.length ≤ st.imgbb_urls.length) :
    (uploadPdfFlow sv n st).state.ocr_texts.length ≤
      (uploadPdfFlow sv n st).state.imgbb_urls.length ∧
    (st.imgbb_urls.length ≤ n →
      (uploadPdfFlow sv n st).state.imgbb_urls.length ≤
        (uploadPdfFlow sv n st).state.images) := by
  constructor
  · exact (pdfLoop_texts_le_urls sv (List.range n)
      ⟨n, st.imgbb_urls, st.ocr_texts⟩ "" [] [] h).1
  · intro hn
    have himg : (uploadPdfFlow sv n st).state.images = n :=
      (pdfLoop_texts_le_urls sv (List.range n)
        ⟨n, st.imgbb_urls, st.ocr_texts⟩ "" [] [] h).2
    rw [himg]
    exact pdfLoop_urls_bound sv n (List.range n) ⟨n, st.imgbb_urls, st.ocr_texts⟩
      "" [] [] (fun i hi => List.mem_range.mp hi) hn

/-- C4 witness: the amended invariant at a concrete input (fresh session,
1-page document, always-succeeding services). -/
theorem pipeline_invariant_amended_witness :
    initState.ocr_texts.length ≤ initState.imgbb_urls.length ∧
    ((uploadPdfFlow constServices 1 initState).state.ocr_texts.length ≤
      (uploadPdfFlow constServices 1 initState).state.imgbb_urls.length ∧
    (initState.imgbb_urls.length ≤ 1 →
      (uploadPdfFlow constServices 1 initState).state.imgbb_urls.length ≤
        (uploadPdfFlow constServices 1 initState).state.images)) :=
  ⟨by decide, pipeline_invariant_amended constServices 1 initState (by decide)⟩

/-- C5: the direct-URL flow produces exactly one displayed outcome per
filtered URL, and the outcome at each position depends only on the OCR
result for that URL (success shows its text, failure reports its error,
both with the URL's 1-based position): one URL's permanent failure
cannot prevent any other URL from being attempted and producing its own
output. -/
theorem url_flow_isolation (recOcr : String → Except String String) (urls : List String) :
    (runOcrButton recOcr urls).length = urls.length ∧
    ∀ j, j < urls.length →
      (runOcrButton recOcr urls).getD j (UrlOutcome.errorReport 0 "") =
        (match recOcr (urls.getD j "") with
         | Except.ok t => UrlOutcome.output (j + 1) t
         | Except.error e => UrlOutcome.errorReport (j + 1) e) := by
  constructor
  · exact urlLoop_length recOcr urls 1
  · intro j hj
    rw [runOcrButton, urlLoop_getD recOcr urls j 1 hj,
      show 1 + j = j + 1 by omega]

/-- C5 witness: three URLs of which the second fails permanently:
outputs are produced for URLs 1 and 3 and an error is reported for
URL 2 alone. -/
theorem url_flow_isolation_witness :
    (1 : Nat) < urlsFix.length ∧
    (runOcrButton recOcrFix urlsFix).getD 1 (UrlOutcome.errorReport 0 "") =
      UrlOutcome.errorReport 2 "boom" ∧
    (runOcrButton recOcrFix urlsFix).getD 0 (UrlOutcome.errorReport 0 "") =
      UrlOutcome.output 1 "T:https://a" ∧
    (runOcrButton recOcrFix urlsFix).getD 2 (UrlOutcome.errorReport 0 "") =
      UrlOutcome.output 3 "T:https://c" := by
  refine ⟨by decide, ?_, ?_, ?_⟩
  · rw [(url_flow_isolation recOcrFix urlsFix).2 1 (by decide)]
    decide
  · rw [(url_flow_isolation recOcrFix urlsFix).2 0 (by decide)]
    decide
  · rw [(url_flow_isolation recOcrFix urlsFix).2 2 (by decide)]
    decide

/-- C6: the pasted text is split on line breaks and commas, each entry is
stripped, entries not starting with "https://" are dropped and order is
preserved (formally: the filter equals mapping strip over the split
entries and keeping those starting with "https://", in order); in
particular the spec's example input yields exactly its two URLs. -/
theorem url_filtering :
    filterUrls "https://a.png, not-a-url\nhttps://b.png" =
      ["https://a.png", "https://b.png"] ∧
    ∀ s, filterUrls s =
      (((pySplitlines s).flatMap (fun part => pySplitComma part)).map pyStrip).filter
        (fun u => pyStartsWith u "https://") := by
  constructor
  · decide
  · intro s
    unfold filterUrls
    exact filterMap_map_filter pyStrip (fun u => pyStartsWith u "https://") _

/-- C9: if the session records more URLs than texts (page at index
`len(ocr_texts)` published but not recognized) and the document reaches
that page, re-running the PDF flow does not retry recognition: the skip
check `i < len(imgbb_urls)` sends page `len(ocr_texts)` into the skip
branch, where reading `ocr_texts[i]` raises an out-of-bounds IndexError
outside the per-page try/except; no publish and no recognize call is
made and the session collections are left unchanged. -/
theorem published_without_text_crashes (sv : Services) (n : Nat) (st : SessionState)
    (hlt : st.ocr_texts.length < st.imgbb_urls.length) (hn : st.ocr_texts.length < n) :
    (uploadPdfFlow sv n st).outcome = LoopExit.crashed st.ocr_texts.length ∧
    (uploadPdfFlow sv n st).pubCalls = [] ∧
    (uploadPdfFlow sv n st).recCalls = [] ∧
    (uploadPdfFlow sv n st).state = ⟨n, st.imgbb_urls, st.ocr_texts⟩ := by
  obtain ⟨m2, hm2⟩ : ∃ m2, n = st.ocr_texts.length + (m2 + 1) :=
    ⟨n - st.ocr_texts.length - 1, by omega⟩
  have hsplit : List.range n = List.range' 0 st.ocr_texts.length ++
      st.ocr_texts.length :: List.range' (st.ocr_texts.length + 1) m2 := by
    have h2 := range'_split 0 st.ocr_texts.length (m2 + 1)
    rw [← hm2] at h2
    rw [List.range_eq_range' n, h2, List.range'_succ]
    norm_num
  have hskip := pdfLoop_skip sv st.ocr_texts.length 0
    ⟨n, st.imgbb_urls, st.ocr_texts⟩ "" [] [] (by simp) (le_of_lt hlt)
  have hstep1 : pdfLoop sv (List.range' 0 st.ocr_texts.length)
      ⟨n, st.imgbb_urls, st.ocr_texts⟩ "" [] [] =
      ⟨⟨n, st.imgbb_urls, st.ocr_texts⟩, markedConcat 0 st.ocr_texts, [], [],
        LoopExit.completed⟩ := by
    rw [hskip]
    simp [String.empty_append]
  unfold uploadPdfFlow
  rw [hsplit, pdfLoop_append, hstep1]
  simp only [pdfLoop]
  rw [dif_pos hlt, dif_neg (Nat.lt_irrefl st.ocr_texts.length)]
  exact ⟨rfl, rfl, rfl, rfl⟩

/-- C9 witness: a session with one published URL and no recognized text
crashes with an IndexError at page index 0 on re-run. -/
theorem published_without_text_crashes_witness :
    crashState.ocr_texts.length < crashState.imgbb_urls.length ∧
    crashState.ocr_texts.length < 1 ∧
    (uploadPdfFlow constServices 1 crashState).outcome = LoopExit.crashed 0 := by
  refine ⟨by decide, by decide, ?_⟩
  exact (published_without_text_crashes constServices 1 crashState
    (by decide) (by decide)).1

/-- C7: starting from a session whose URL and text collections are
balanced (every recorded page fully Done, e.g. a fresh session), the
accumulated text of a run is the marked concatenation, in ascending
page-index order with 1-based "--- Page N ---" markers, of a prefix of
the final per-page texts (all of them when the run completes), whatever
the services do; and the Resume handler recomputes the accumulated text
on demand from the per-page texts: it yields exactly the marked
concatenation of all recorded texts. -/
theorem accumulated_result_format (sv : Services) (n : Nat) (st : SessionState)
    (hbal : st.imgbb_urls.length = st.ocr_texts.length) :
    ∃ m, m ≤ n ∧
      (uploadPdfFlow sv n st).fullText =
        markedConcat 0 (((uploadPdfFlow sv n st).state.ocr_texts).take m) ∧
      resumeFullText (uploadPdfFlow sv n st).state =
        markedConcat 0 (uploadPdfFlow sv n st).state.ocr_texts := by
  by_cases hn : n ≤ st.ocr_texts.length
  · refine ⟨n, le_refl n, ?_, ?_⟩
    · unfold uploadPdfFlow
      rw [List.range_eq_range' n,
        pdfLoop_skip sv n 0 ⟨n, st.imgbb_urls, st.ocr_texts⟩ "" [] []
          (by simpa using hn) hbal.ge]
      simp [String.empty_append]
    · unfold uploadPdfFlow resumeFullText
      rw [List.range_eq_range' n,
        pdfLoop_skip sv n 0 ⟨n, st.imgbb_urls, st.ocr_texts⟩ "" [] []
          (by simpa using hn) hbal.ge]
      exact resumeLoop_eq_markedConcat st.ocr_texts st.imgbb_urls 0 hbal.ge
  · push_neg at hn
    obtain ⟨m2, hm2⟩ : ∃ m2, n = st.ocr_texts.length + m2 :=
      ⟨n - st.ocr_texts.length, by omega⟩
    have hsplit : List.range n = List.range' 0 st.ocr_texts.length ++
        List.range' st.ocr_texts.length m2 := by
      have h2 := range'_split 0 st.ocr_texts.length m2
      rw [← hm2] at h2
      rw [List.range_eq_range' n, h2]
      norm_num
    have hstep1 : pdfLoop sv (List.range' 0 st.ocr_texts.length)
        ⟨n, st.imgbb_urls, st.ocr_texts⟩ "" [] [] =
        ⟨⟨n, st.imgbb_urls, st.ocr_texts⟩, markedConcat 0 st.ocr_texts, [], [],
          LoopExit.completed⟩ := by
      rw [pdfLoop_skip sv st.ocr_texts.length 0
        ⟨n, st.imgbb_urls, st.ocr_texts⟩ "" [] [] (by simp) hbal.ge]
      simp [String.empty_append]
    obtain ⟨ts, us, h1, h2, h3, h4, h5⟩ := pdfLoop_balanced sv m2 st.ocr_texts.length
      ⟨n, st.imgbb_urls, st.ocr_texts⟩ (markedConcat 0 st.ocr_texts) [] []
      (by simpa using hbal) (by simp)
    refine ⟨st.ocr_texts.length + ts.length, by omega, ?_, ?_⟩
    · unfold uploadPdfFlow
      rw [hsplit, pdfLoop_append, hstep1]
      simp only []
      rw [h5, h4]
      simp only []
      rw [List.take_of_length_le (by simp), markedConcat_append st.ocr_texts ts 0]
      norm_num
    · unfold uploadPdfFlow
      rw [hsplit, pdfLoop_append, hstep1]
      simp only []
      rw [h4]
      unfold resumeFullText
      simp only []
      exact resumeLoop_eq_markedConcat (st.ocr_texts ++ ts)
        (st.imgbb_urls ++ us) 0 (by simp [hbal]; omega)

/-- C7 witness: the format statement at a concrete input (fresh session,
1-page document, always-succeeding services). -/
theorem accumulated_result_format_witness :
    initState.imgbb_urls.length = initState.ocr_texts.length ∧
    ∃ m, m ≤ 1 ∧
      (uploadPdfFlow constServices 1 initState).fullText =
        markedConcat 0 (((uploadPdfFlow constServices 1 initState).state.ocr_texts).take m) ∧
      resumeFullText (uploadPdfFlow constServices 1 initState).state =
        markedConcat 0 (uploadPdfFlow constServices 1 initState).state.ocr_texts :=
  ⟨rfl, accumulated_result_format constServices 1 initState rfl⟩

end PdfOcr
